import Mathlib

/-!
Verification of the Cosa UART driver excerpt
(`Cosa/IOStream/Driver/UART.cpp`, `Cosa/IOStream/Driver/HD44780_IO_MJKDZ.cpp`,
`Cosa/Rotary.hh`) against its natural-language specification.

Machine integers are modelled as `Nat` with explicit `% 2^w` truncation where
the C arithmetic truncates; hardware registers are fields of an explicit state
record; interrupt handlers are state-transition functions.
-/

/-- Modelled from the spec: `Cosa/IOBuffer.hh` is not under `src/` (only its
callers in `UART.cpp` are).  Per spec section 4.1 the circular byte buffer holds
bytes FIFO with a fixed capacity; we represent the contents as the list of
pending bytes (front = next to read) together with the capacity. -/
structure IOBuffer where
  data : List Nat
  cap : Nat
deriving DecidableEq

/-- Modelled from the spec: `IOBuffer::putchar` — `put(byte) -> success|full`:
inserts, returns failure (-1) without mutating state if already full. -/
def IOBuffer.putchar (b : IOBuffer) (c : Nat) : IOBuffer × Int :=
  if b.data.length = b.cap then (b, -1)
  else ({ b with data := b.data ++ [c] }, Int.ofNat c)

/-- Modelled from the spec: `IOBuffer::getchar` — `get() -> byte|empty`:
removes the oldest byte, returns failure (-1) without mutating state if empty. -/
def IOBuffer.getchar (b : IOBuffer) : IOBuffer × Int :=
  match b.data with
  | [] => (b, -1)
  | c :: rest => ({ b with data := rest }, Int.ofNat c)

/-- Modelled from the spec: `IOBuffer::flush` — resets to empty, discarding
contents. -/
def IOBuffer.flush (b : IOBuffer) : IOBuffer :=
  { b with data := [] }

/-- Hardware UART state: the channel's registers (`UCSRnA`, `UCSRnB`, `UCSRnC`,
`UBRRn`, `UDRn`) and the two buffers referenced by the driver instance
(`m_ibuf`, `m_obuf`).  Registers are 8-bit (`UBRRn` 16-bit) values as `Nat`. -/
structure UARTState where
  ucsra : Nat
  ucsrb : Nat
  ucsrc : Nat
  ubrr : Nat
  udr : Nat
  ibuf : IOBuffer
  obuf : IOBuffer
deriving DecidableEq

/-- The C expression `(F_CPU / (baudrate * mult)) - 1` evaluated in 32-bit
unsigned arithmetic and assigned to the 16-bit `setting` variable
(`UART.cpp` lines 81 and 85): product and subtraction wrap modulo `2^32`,
the assignment truncates modulo `2^16`. -/
def divisorCalc (F B mult : Nat) : Nat :=
  ((F % 4294967296) / ((B * mult) % 4294967296) + 4294967295) % 4294967296 % 65536

/-- `UART::begin` (hardware variant, `UART.cpp` lines 78-99).  `F` is the board
clock `F_CPU`.  Computes the double-speed divisor; if it exceeds 4095 it
recomputes with the 16x formula (leaving `UCSRnA` untouched), otherwise writes
`UCSRnA = _BV(U2X0) = 2`.  Then writes the divisor to `UBRRn`,
`UCSRnB = _BV(RXCIE0)|_BV(RXEN0)|_BV(TXEN0) = 152`, and `UCSRnC = format`.
Always returns 1 (true). -/
def UART.begin (F : Nat) (s : UARTState) (baudrate format : Nat) :
    UARTState × Bool :=
  (if divisorCalc F baudrate 8 > 4095 then
    { s with ubrr := divisorCalc F baudrate 16,
             ucsrb := 152, ucsrc := format % 256 }
  else
    { s with ucsra := 2, ubrr := divisorCalc F baudrate 8,
             ucsrb := 152, ucsrc := format % 256 }, true)

/-- A concrete initial state: registers zero, both buffers empty with the
default capacity. -/
def s0 : UARTState :=
  { ucsra := 0, ucsrb := 0, ucsrc := 0, ubrr := 0, udr := 0,
    ibuf := { data := [], cap := 64 }, obuf := { data := [], cap := 64 } }

theorem divisorCalc_eq (F B m : Nat) (hF : F < 4294967296)
    (hp : B * m < 4294967296) (hq : 1 ≤ F / (B * m))
    (hw : F / (B * m) - 1 < 65536) :
    divisorCalc F B m = F / (B * m) - 1 := by
  unfold divisorCalc
  rw [Nat.mod_eq_of_lt hF, Nat.mod_eq_of_lt hp]
  omega

/-- Claim C1: for every call to the hardware-variant `begin` with clock `F` and
baud `B` (in the range where the C arithmetic does not wrap), the divisor is
`F/(B*8) - 1` by integer division, and whenever it does not exceed 4095 this
double-speed divisor is written to `UBRRn` with the `U2X` bit set and `begin`
returns success. -/
theorem begin_double_speed (F B fmt : Nat) (s : UARTState)
    (hF : F < 4294967296) (hp : B * 8 < 4294967296)
    (hq : 1 ≤ F / (B * 8)) (hD : F / (B * 8) - 1 ≤ 4095) :
    (UART.begin F s B fmt).1.ubrr = F / (B * 8) - 1 ∧
    (UART.begin F s B fmt).1.ucsra = 2 ∧
    (UART.begin F s B fmt).2 = true := by
  have h8 := divisorCalc_eq F B 8 hF hp hq (by omega)
  simp only [UART.begin, h8]
  rw [if_neg (by omega)]
  exact ⟨rfl, rfl, trivial⟩

/-- Witness for C1: the claim's concrete instance — for clock 16,000,000 and
baud 9600 `begin` selects double-speed sampling with divisor 207. -/
theorem begin_double_speed_witness :
    (UART.begin 16000000 s0 9600 6).1.ubrr = 207 ∧
    (UART.begin 16000000 s0 9600 6).1.ucsra = 2 ∧
    (UART.begin 16000000 s0 9600 6).2 = true :=
  begin_double_speed 16000000 9600 6 s0 (by decide) (by decide)
    (by decide) (by decide)

/-- `UART::end` (`UART.cpp` lines 101-109): clears bits `RXCIE0` (7), `RXEN0`
(4), `TXEN0` (3) of `UCSRnB` (i.e. `&= ~152`, so `&&& 103` on the 8-bit
register), flushes the output and input buffers, and returns 1 (true).
(`end` is a reserved word in Lean, hence the trailing apostrophe.) -/
def UART.end' (s : UARTState) : UARTState × Bool :=
  ({ s with ucsrb := s.ucsrb &&& 103,
            obuf := s.obuf.flush, ibuf := s.ibuf.flush }, true)

/-- `ISR(USART_UDRE_vect)` (`UART.cpp` lines 127-136): dequeue from the output
buffer; if a byte was available write it to `UDR0`, otherwise clear `UDRIE0`
(bit 5) in `UCSR0B`. -/
def ISR_USART_UDRE (s : UARTState) : UARTState :=
  let r := s.obuf.getchar
  if r.2 ≠ -1 then { s with obuf := r.1, udr := r.2.toNat }
  else { s with obuf := r.1, ucsrb := s.ucsrb &&& 223 }

/-- `ISR(USART_RX_vect)` (`UART.cpp` lines 138-141): enqueue the received byte
(`UDR0`) into the input buffer, ignoring the result. -/
def ISR_USART_RX (s : UARTState) : UARTState :=
  { s with ibuf := (s.ibuf.putchar s.udr).1 }

/-- Claim C2 counterexample: baud 244 at clock 16,000,000 is not representable
even in the fallback mode (`16000000/(244*16) - 1 = 4097 > 4095`), yet `begin`
still returns success — it has no failure path. -/
theorem begin_no_failure_cex :
    4095 < 16000000 / (244 * 16) - 1 ∧
    (UART.begin 16000000 s0 244 6).2 = true := by decide

/-- Claim C2 (amended): `begin` always returns success, even when the requested
baud rate is not representable in either sampling mode; an out-of-range divisor
is written to the divisor register truncated, not surfaced as a failure. -/
theorem begin_always_true (F B fmt : Nat) (s : UARTState) :
    (UART.begin F s B fmt).2 = true := rfl

/-- A state in which every `UCSRnB` bit is set, exercising `end`'s mask. -/
def sEnd : UARTState := { s0 with ucsrb := 255 }

/-- Claim C3 counterexample: with the transmit-buffer-empty interrupt enable
(`UDRIE0`, bit 5 of `UCSRnB`) set before the call, `end()` leaves it set: the
mask `~(_BV(RXCIE0)|_BV(RXEN0)|_BV(TXEN0))` does not cover `UDRIE0`. -/
theorem end_udrie_cex :
    sEnd.ucsrb.testBit 5 = true ∧
    (UART.end' sEnd).1.ucsrb.testBit 5 = true := by decide

/-- Claim C3 (amended): `end()` disables the receiver (`RXEN0`, bit 4), the
transmitter (`TXEN0`, bit 3) and the receive-complete interrupt enable
(`RXCIE0`, bit 7), leaves the transmit-buffer-empty interrupt enable
(`UDRIE0`, bit 5) unchanged, flushes both buffers to empty, returns success,
and is idempotent (a second call on the already-closed port is a no-op). -/
theorem end_spec (s : UARTState) :
    (UART.end' s).1.ucsrb.testBit 7 = false ∧
    (UART.end' s).1.ucsrb.testBit 4 = false ∧
    (UART.end' s).1.ucsrb.testBit 3 = false ∧
    (UART.end' s).1.ucsrb.testBit 5 = s.ucsrb.testBit 5 ∧
    (UART.end' s).1.ibuf.data = [] ∧
    (UART.end' s).1.obuf.data = [] ∧
    UART.end' (UART.end' s).1 = UART.end' s ∧
    (UART.end' s).2 = true := by
  have h7 : Nat.testBit 103 7 = false := by decide
  have h4 : Nat.testBit 103 4 = false := by decide
  have h3 : Nat.testBit 103 3 = false := by decide
  have h5 : Nat.testBit 103 5 = true := by decide
  have hi : (103 : Nat) &&& 103 = 103 := rfl
  refine ⟨?_, ?_, ?_, ?_, rfl, rfl, ?_, rfl⟩
  · simp [UART.end', Nat.testBit_and, h7]
  · simp [UART.end', Nat.testBit_and, h4]
  · simp [UART.end', Nat.testBit_and, h3]
  · simp [UART.end', Nat.testBit_and, h5]
  · simp only [UART.end', IOBuffer.flush, Nat.and_assoc, hi]

/-- Claim C4: whenever the transmit-buffer-empty interrupt handler runs, a
non-empty output buffer has exactly its front byte dequeued and written to the
data register (all other state untouched); an empty output buffer leaves the
data register and buffers untouched and clears only the `UDRIE0` bit of
`UCSR0B`. -/
theorem udre_handler_spec (s : UARTState) :
    (∀ c rest, s.obuf.data = c :: rest →
      ISR_USART_UDRE s =
        { s with obuf := { s.obuf with data := rest }, udr := c }) ∧
    (s.obuf.data = [] →
      ISR_USART_UDRE s = { s with ucsrb := s.ucsrb &&& 223 } ∧
      (ISR_USART_UDRE s).udr = s.udr ∧
      (ISR_USART_UDRE s).obuf = s.obuf ∧
      (ISR_USART_UDRE s).ucsrb.testBit 5 = false ∧
      (∀ i, i < 8 → i ≠ 5 →
        (ISR_USART_UDRE s).ucsrb.testBit i = s.ucsrb.testBit i)) := by
  constructor
  · intro c rest h
    simp [ISR_USART_UDRE, IOBuffer.getchar, h]
  · intro h
    have he : ISR_USART_UDRE s = { s with ucsrb := s.ucsrb &&& 223 } := by
      simp [ISR_USART_UDRE, IOBuffer.getchar, h]
    have hm5 : Nat.testBit 223 5 = false := by decide
    refine ⟨he, by rw [he], by rw [he], ?_, ?_⟩
    · rw [he]
      simp [Nat.testBit_and, hm5]
    · intro i h8 hi
      rw [he]
      simp only [Nat.testBit_and]
      have ht : Nat.testBit 223 i = true := by
        interval_cases i
        · decide
        · decide
        · decide
        · decide
        · decide
        · exact absurd rfl hi
        · decide
        · decide
      simp [ht]

/-- A state whose output buffer holds exactly the byte 65. -/
def sU : UARTState := { s0 with obuf := { data := [65], cap := 64 } }

/-- Witness for C4: at a state with output buffer `[65]`, the handler dequeues
65 into the data register. -/
theorem udre_handler_spec_witness :
    ISR_USART_UDRE sU =
      { sU with obuf := { sU.obuf with data := [] }, udr := 65 } :=
  (udre_handler_spec sU).1 65 [] rfl

/-- Claim C7: if the input buffer is full when the receive interrupt handler
runs, the whole state — in particular the input buffer's contents — is left
completely unchanged: the incoming byte is dropped. -/
theorem rx_drop_on_full (s : UARTState)
    (h : s.ibuf.data.length = s.ibuf.cap) :
    ISR_USART_RX s = s := by
  simp [ISR_USART_RX, IOBuffer.putchar, h]

/-- A state whose input buffer is full (two bytes, capacity two). -/
def sR : UARTState := { s0 with ibuf := { data := [1, 2], cap := 2 }, udr := 9 }

/-- Witness for C7: a receive event on a full two-byte input buffer is a
no-op. -/
theorem rx_drop_on_full_witness : ISR_USART_RX sR = sR :=
  rx_drop_on_full sR rfl

/-- A driver instance as referenced through the per-channel registered-instance
pointer `uart1`: its two buffers (`m_ibuf`, `m_obuf`). -/
structure UARTObj where
  m_ibuf : IOBuffer
  m_obuf : IOBuffer
deriving DecidableEq

/-- The secondary-channel world (`__AVR_ATmega1284P__` section of `UART.cpp`):
the registered-instance reference `uart1` (null when unbound), and the
channel's `UDR1` and `UCSR1B` registers. -/
structure Chan1 where
  uart1 : Option UARTObj
  udr1 : Nat
  ucsr1b : Nat
deriving DecidableEq

/-- `ISR(USART1_UDRE_vect)` (`UART.cpp` lines 147-157): return immediately when
`uart1 == 0`; otherwise dequeue from the instance's output buffer, writing the
byte to `UDR1` or clearing `UDRIE0` (bit 5) of `UCSR1B` when empty. -/
def ISR_USART1_UDRE (w : Chan1) : Chan1 :=
  match w.uart1 with
  | none => w
  | some u =>
    let r := u.m_obuf.getchar
    if r.2 ≠ -1 then
      { w with uart1 := some { u with m_obuf := r.1 }, udr1 := r.2.toNat }
    else
      { w with uart1 := some { u with m_obuf := r.1 },
               ucsr1b := w.ucsr1b &&& 223 }

/-- `ISR(USART1_RX_vect)` (`UART.cpp` lines 159-163): return immediately when
`uart1 == 0`; otherwise enqueue `UDR1` into the instance's input buffer. -/
def ISR_USART1_RX (w : Chan1) : Chan1 :=
  match w.uart1 with
  | none => w
  | some u =>
    { w with uart1 := some { u with m_ibuf := (u.m_ibuf.putchar w.udr1).1 } }

/-- Claim C8: whenever the registered-instance reference `uart1` is null, both
secondary-channel interrupt handlers return with the whole world — buffers,
data register, control register — unchanged. -/
theorem usart1_null_guard (w : Chan1) (h : w.uart1 = none) :
    ISR_USART1_UDRE w = w ∧ ISR_USART1_RX w = w := by
  unfold ISR_USART1_UDRE ISR_USART1_RX
  rw [h]
  exact ⟨rfl, rfl⟩

/-- Witness for C8: a concrete unbound channel state is untouched by both
handlers. -/
theorem usart1_null_guard_witness :
    ISR_USART1_UDRE { uart1 := none, udr1 := 7, ucsr1b := 255 } =
      { uart1 := none, udr1 := 7, ucsr1b := 255 } ∧
    ISR_USART1_RX { uart1 := none, udr1 := 7, ucsr1b := 255 } =
      { uart1 := none, udr1 := 7, ucsr1b := 255 } :=
  usart1_null_guard { uart1 := none, udr1 := 7, ucsr1b := 255 } rfl

/-- Modelled from the spec: the frame-format encoding of `UART.hh` is not under
`src/`; per the spec, `begin` stores "the data-bit count extracted from the
format", so `DATA_MASK` selects the count field (low bits) of the format. -/
def DATA_MASK : Nat := 15

/-- State of the software-bit-banged variant (ATtiny section of `UART.cpp`):
the stored bit period in microseconds and the frame format. -/
structure SWUART where
  m_period : Nat
  m_format : Nat
deriving DecidableEq

/-- `UART::begin` (software variant, `UART.cpp` lines 35-41): stores
`m_period = 1000000 / baudrate` and the format, returns 1 (true). -/
def SWUART.begin (baudrate format : Nat) : SWUART × Bool :=
  ({ m_period := 1000000 / baudrate, m_format := format % 256 }, true)

/-- LSB-first data bits as emitted by the loop in the software `putchar`:
`write(c & 1); c >>= 1`, repeated `bits` times. -/
def swDataBits : Nat → Nat → List Nat
  | 0, _ => []
  | n + 1, c => (c % 2) :: swDataBits n (c / 2)

/-- `UART::putchar` (software variant, `UART.cpp` lines 43-60).  Returns the
sequence of line writes — each a pair (level written, microseconds the level is
then held by `DELAY`) — together with the returned value `res = c & 0xff`:
start bit (low, one period), `bits` data bits LSB first (one period each), then
high held for `m_period * 32` (the final `write(1)` is followed only by the
`DELAY(m_period * 32)` after the synchronized block). -/
def SWUART.putchar (s : SWUART) (c : Nat) : List (Nat × Nat) × Nat :=
  let res := c % 256
  let bits := s.m_format &&& DATA_MASK
  ((0, s.m_period) ::
     (swDataBits bits c).map (fun b => (b, s.m_period)) ++
     [(1, s.m_period * 32)], res)

/-- The software port configured by `begin(9600, 8)`: 8 data bits,
bit period `1000000 / 9600 = 104` microseconds. -/
def sw0 : SWUART := (SWUART.begin 9600 8).1

/-- Claim C5 counterexample: at baud 9600 with 8 data bits, the data bits that
`putchar 0x41` emits (successive right-shift of 0x41 from its low bit) are
`1,0,0,0,0,0,1,0` — not the claimed list `1,0,0,0,0,1,0`, which is one zero
short (it has only 7 entries for an 8-data-bit frame). -/
theorem sw_putchar_cex :
    (((SWUART.putchar sw0 65).1.map Prod.fst).drop 1).take 8 =
      [1, 0, 0, 0, 0, 0, 1, 0] ∧
    ([1, 0, 0, 0, 0, 0, 1, 0] : List Nat) ≠ [1, 0, 0, 0, 0, 1, 0] := by
  decide

/-- Claim C5 (amended): for the software variant configured for baud 9600 with
8 data bits, `write(0x41)` drives the line low for one bit period (104 us),
then emits the bits `1,0,0,0,0,0,1,0` derived by successive right-shift of 0x41
starting from its low bit, each held for one bit period, then drives the line
high, holding it for 32 bit periods (the stop bit and the inter-frame guard
combined), before returning 0x41. -/
theorem sw_putchar_trace :
    SWUART.putchar sw0 65 =
      ([(0, 104), (1, 104), (0, 104), (0, 104), (0, 104), (0, 104), (0, 104),
        (1, 104), (0, 104), (1, 3328)], 65) := by
  decide

/-- The MJKDZ I2C port expander field assignment (`HD44780.hh` is not under
`src/`; the fields are those the driver code uses: the 4-bit data nibble,
enable, read/write, register-select and backlight bits). -/
structure MJKDZPort where
  data : Nat
  en : Bool
  rw : Bool
  rs : Bool
  bt : Bool
deriving DecidableEq

/-- The packed byte written to the expander (bitfield order data:4, en, rw,
rs, bt). -/
def MJKDZPort.as_uint8 (p : MJKDZPort) : Nat :=
  p.data % 16 + 16 * cond p.en 1 0 + 32 * cond p.rw 1 0 +
    64 * cond p.rs 1 0 + 128 * cond p.bt 1 0

/-- `HD44780::MJKDZ::set_backlight` (`HD44780_IO_MJKDZ.cpp` lines 53-58):
`m_port.bt = !flag` (C logical negation of the `uint8_t` argument), then the
packed port byte is written to the device; the pair is (new port, byte
written). -/
def MJKDZ.set_backlight (p : MJKDZPort) (flag : Nat) : MJKDZPort × Nat :=
  let p2 := { p with bt := decide (flag % 256 = 0) }
  (p2, p2.as_uint8)

/-- Claim C9: `set_backlight(flag)` stores the logical negation of `flag` into
the port's backlight bit — a non-zero flag yields `bt = false` (active-low), a
zero flag yields `bt = true` — leaves every other port field unchanged, and the
byte written to the device is the packed byte of the updated port. -/
theorem set_backlight_spec (p : MJKDZPort) (flag : Nat) (hf : flag < 256) :
    (MJKDZ.set_backlight p flag).1.bt = decide (flag = 0) ∧
    (MJKDZ.set_backlight p flag).1.data = p.data ∧
    (MJKDZ.set_backlight p flag).1.en = p.en ∧
    (MJKDZ.set_backlight p flag).1.rw = p.rw ∧
    (MJKDZ.set_backlight p flag).1.rs = p.rs ∧
    (MJKDZ.set_backlight p flag).2 =
      ((MJKDZ.set_backlight p flag).1).as_uint8 := by
  have h : flag % 256 = flag := Nat.mod_eq_of_lt hf
  simp [MJKDZ.set_backlight, h]

/-- Witness for C9: on a concrete port with all bits set, a non-zero flag
clears the backlight bit and leaves the rest alone. -/
theorem set_backlight_spec_witness :
    (MJKDZ.set_backlight { data := 5, en := true, rw := true, rs := true,
                           bt := true } 1).1.bt = decide ((1 : Nat) = 0) ∧
    (MJKDZ.set_backlight { data := 5, en := true, rw := true, rs := true,
                           bt := true } 1).1.data = 5 ∧
    (MJKDZ.set_backlight { data := 5, en := true, rw := true, rs := true,
                           bt := true } 1).1.en = true ∧
    (MJKDZ.set_backlight { data := 5, en := true, rw := true, rs := true,
                           bt := true } 1).1.rw = true ∧
    (MJKDZ.set_backlight { data := 5, en := true, rw := true, rs := true,
                           bt := true } 1).1.rs = true ∧
    (MJKDZ.set_backlight { data := 5, en := true, rw := true, rs := true,
                           bt := true } 1).2 =
      ((MJKDZ.set_backlight { data := 5, en := true, rw := true, rs := true,
                              bt := true } 1).1).as_uint8 :=
  set_backlight_spec { data := 5, en := true, rw := true, rs := true,
                       bt := true } 1 (by decide)

/-- `Rotary::Encoder::Direction` values (`Rotary.hh` lines 106-110):
`NONE = 0x00`, `CW = 0x10`, `CCW = 0x20`. -/
def Rotary.NONE : Nat := 0
def Rotary.CW : Nat := 16
def Rotary.CCW : Nat := 32

/-- `Rotary::Dial<T>` state (`Rotary.hh` lines 201-207), with the template
value type `T` taken as the integers: current value, range bounds and step. -/
structure Dial where
  m_value : Int
  m_min : Int
  m_max : Int
  m_step : Int
deriving DecidableEq

/-- `Rotary::Dial::on_event` (`Rotary.hh` lines 216-227).  The `type` argument
is unused by the body and omitted.  Returns the updated dial and the argument
passed to `on_change` (`none` when `on_change` is not called because the value
sat exactly on the blocking bound). -/
def Dial.on_event (d : Dial) (value : Nat) : Dial × Option Int :=
  if value = Rotary.CW then
    if d.m_value = d.m_max then (d, none)
    else ({ d with m_value := d.m_value + d.m_step },
          some (d.m_value + d.m_step))
  else
    if d.m_value = d.m_min then (d, none)
    else ({ d with m_value := d.m_value - d.m_step },
          some (d.m_value - d.m_step))

/-- Claim C10: every event value other than `CW` — `NONE` included — is treated
as a counter-clockwise turn, decrementing by `m_step` unless the value already
equals `m_min` exactly; only a value exactly equal to `m_max` blocks the `CW`
increment.  Nothing is clamped: a step that jumps over the bound goes through
unchecked. -/
theorem dial_on_event_spec (d : Dial) (value : Nat) :
    (value ≠ Rotary.CW →
      Dial.on_event d value =
        if d.m_value = d.m_min then (d, none)
        else ({ d with m_value := d.m_value - d.m_step },
              some (d.m_value - d.m_step))) ∧
    (value = Rotary.CW →
      Dial.on_event d value =
        if d.m_value = d.m_max then (d, none)
        else ({ d with m_value := d.m_value + d.m_step },
              some (d.m_value + d.m_step))) := by
  constructor
  · intro h
    rw [Dial.on_event, if_neg h]
  · intro h
    rw [Dial.on_event, if_pos h]

/-- Witness for C10: a `NONE` event decrements a dial at 9 (min 0, max 10,
step 2) to 7; a `CW` event at 9 steps to 11, jumping over `m_max = 10`
unclamped; a `CCW`-style event at the minimum leaves the dial untouched. -/
theorem dial_on_event_spec_witness :
    Dial.on_event { m_value := 9, m_min := 0, m_max := 10, m_step := 2 } 0 =
      ({ m_value := 7, m_min := 0, m_max := 10, m_step := 2 }, some 7) ∧
    Dial.on_event { m_value := 9, m_min := 0, m_max := 10, m_step := 2 } 16 =
      ({ m_value := 11, m_min := 0, m_max := 10, m_step := 2 }, some 11) ∧
    Dial.on_event { m_value := 0, m_min := 0, m_max := 10, m_step := 2 } 32 =
      ({ m_value := 0, m_min := 0, m_max := 10, m_step := 2 }, none) := by
  refine ⟨?_, ?_, ?_⟩
  · rw [(dial_on_event_spec
      { m_value := 9, m_min := 0, m_max := 10, m_step := 2 } 0).1 (by decide)]
    decide
  · rw [(dial_on_event_spec
      { m_value := 9, m_min := 0, m_max := 10, m_step := 2 } 16).2 rfl]
    decide
  · rw [(dial_on_event_spec
      { m_value := 0, m_min := 0, m_max := 10, m_step := 2 } 32).1 (by decide)]
    decide

/-- Claim C6 counterexample: at clock 16,000,000 and baud 300 the double-speed
divisor `16000000/(300*8) - 1 = 6665` exceeds 4095, so `begin` takes the
fallback branch — yet starting from a state whose `U2X` bit (bit 1 of
`UCSRnA`) is already set, the bit is still set after `begin` returns: the
fallback branch never writes `UCSRnA`. -/
theorem begin_fallback_cex :
    4095 < 16000000 / (300 * 8) - 1 ∧
    ({ s0 with ucsra := 2 } : UARTState).ucsra.testBit 1 = true ∧
    (UART.begin 16000000 { s0 with ucsra := 2 } 300 6).1.ucsra.testBit 1 =
      true := by
  decide

/-- Claim C6 (amended): whenever the double-speed divisor `F/(B*8) - 1`
exceeds 4095 (within the 16-bit width of the `setting` variable), `begin`
recomputes the divisor as `F/(B*16) - 1` and leaves `UCSRnA` — including the
speed-doubling `U2X` bit — unchanged from its value before the call (so the
bit is 0 afterwards only if it was 0 before); otherwise `begin` writes
`UCSRnA = _BV(U2X0)`, setting the speed-doubling flag. -/
theorem begin_u2x_policy (F B fmt : Nat) (s : UARTState)
    (hF : F < 4294967296) (hp8 : B * 8 < 4294967296)
    (hp16 : B * 16 < 4294967296)
    (hq8 : 1 ≤ F / (B * 8)) (hw8 : F / (B * 8) - 1 < 65536)
    (hq16 : 1 ≤ F / (B * 16)) (hw16 : F / (B * 16) - 1 < 65536) :
    (4095 < F / (B * 8) - 1 →
      (UART.begin F s B fmt).1.ucsra = s.ucsra ∧
      (UART.begin F s B fmt).1.ubrr = F / (B * 16) - 1) ∧
    (F / (B * 8) - 1 ≤ 4095 →
      (UART.begin F s B fmt).1.ucsra = 2 ∧
      (UART.begin F s B fmt).1.ubrr = F / (B * 8) - 1) := by
  have h8 := divisorCalc_eq F B 8 hF hp8 hq8 hw8
  have h16 := divisorCalc_eq F B 16 hF hp16 hq16 hw16
  constructor
  · intro hover
    simp only [UART.begin, h8, h16]
    rw [if_pos (by omega)]
    exact ⟨rfl, rfl⟩
  · intro hin
    simp only [UART.begin, h8, h16]
    rw [if_neg (by omega)]
    exact ⟨rfl, rfl⟩

/-- Witness for C6 (amended): clock 16,000,000, baud 300, starting with
`UCSRnA = 5`: the fallback is taken (divisor 6665 > 4095), the register keeps
the value 5 and the divisor register gets `16000000/(300*16) - 1 = 3332`. -/
theorem begin_u2x_policy_witness :
    (UART.begin 16000000 { s0 with ucsra := 5 } 300 6).1.ucsra =
      ({ s0 with ucsra := 5 } : UARTState).ucsra ∧
    (UART.begin 16000000 { s0 with ucsra := 5 } 300 6).1.ubrr =
      16000000 / (300 * 16) - 1 :=
  (begin_u2x_policy 16000000 300 6 { s0 with ucsra := 5 }
    (by decide) (by decide) (by decide) (by decide) (by decide)
    (by decide) (by decide)).1 (by decide)
